import Mathlib

/-
Verification of the chunked voxel world of rust-concurrency.

The development shallowly embeds the coordinate system (chunk.rs), the chunk
storage (chunk.rs), the voxel registry (voxel.rs), the world state machine
(mod.rs) and the surface extractor (meshgen.rs).  Machine integers are
modelled as Int with explicit wrapping where Rust performs a narrowing cast
(i16, i32, usize); a Rust panic (assert!, HashMap index, Option::unwrap,
slice index) is modelled as the none case of an Option-valued embedding.
-/

/-- CHUNK_SIZE from chunk.rs. -/
def CHUNK_SIZE : Nat := 32

/-- CHUNK_SIZE_ITEMS from chunk.rs. -/
def CHUNK_SIZE_ITEMS : Nat := CHUNK_SIZE * CHUNK_SIZE * CHUNK_SIZE

/-- Wrapping of an integer into the i16 value range, modelling a Rust
narrowing cast to i16. -/
def wrap16 (v : Int) : Int := (v + 32768) % 65536 - 32768

/-- Wrapping of an integer into the i32 value range, modelling Rust i32
arithmetic where it may overflow (release semantics). -/
def wrap32 (v : Int) : Int := (v + 2147483648) % 4294967296 - 2147483648

/-- The usize modulus 2^64. -/
def USIZE_MOD : Int := 18446744073709551616

/-- WorldCoord from chunk.rs: integer (x, y, z) of a voxel in world space
(i32 components). -/
structure WorldCoord where
  x : Int
  y : Int
  z : Int
deriving DecidableEq

/-- BlockOffsetCoord from chunk.rs (i32 components). -/
structure BlockOffsetCoord where
  x : Int
  y : Int
  z : Int
deriving DecidableEq

/-- ChunkLocalCoord from chunk.rs (usize components). -/
structure ChunkLocalCoord where
  x : Nat
  y : Nat
  z : Nat
deriving DecidableEq

/-- ChunkCoord from chunk.rs.  The Rust fields are i16; every constructor in
this embedding wraps with wrap16, so well-formed values stay in the i16
range. -/
structure ChunkCoord where
  x : Int
  y : Int
  z : Int
deriving DecidableEq

/-- Voxel from voxel.rs: a u8 block id. -/
structure Voxel where
  id : Nat
deriving DecidableEq

namespace WorldCoord

/-- impl Add of BlockOffsetCoord for WorldCoord (componentwise i32 add). -/
def add (a : WorldCoord) (rhs : BlockOffsetCoord) : WorldCoord :=
  ⟨wrap32 (a.x + rhs.x), wrap32 (a.y + rhs.y), wrap32 (a.z + rhs.z)⟩

/-- impl Sub for WorldCoord, producing a BlockOffsetCoord (componentwise
i32 subtraction). -/
def sub (a : WorldCoord) (rhs : WorldCoord) : BlockOffsetCoord :=
  ⟨wrap32 (a.x - rhs.x), wrap32 (a.y - rhs.y), wrap32 (a.z - rhs.z)⟩

/-- WorldCoord::left from chunk.rs. -/
def left (s : WorldCoord) : WorldCoord := ⟨wrap32 (s.x - 1), s.y, s.z⟩

/-- WorldCoord::right from chunk.rs. -/
def right (s : WorldCoord) : WorldCoord := ⟨wrap32 (s.x + 1), s.y, s.z⟩

/-- WorldCoord::front from chunk.rs (z - 1). -/
def front (s : WorldCoord) : WorldCoord := ⟨s.x, s.y, wrap32 (s.z - 1)⟩

/-- WorldCoord::back from chunk.rs (z + 1). -/
def back (s : WorldCoord) : WorldCoord := ⟨s.x, s.y, wrap32 (s.z + 1)⟩

/-- WorldCoord::up from chunk.rs (y + 1). -/
def up (s : WorldCoord) : WorldCoord := ⟨s.x, wrap32 (s.y + 1), s.z⟩

/-- WorldCoord::down from chunk.rs (y - 1). -/
def down (s : WorldCoord) : WorldCoord := ⟨s.x, wrap32 (s.y - 1), s.z⟩

end WorldCoord

/-- One component of the impl From of WorldCoord for ChunkCoord in chunk.rs:
a negative component is first incremented, then divided by CHUNK_SIZE with
Rust i32 division (truncation toward zero), then decremented. -/
def chunkComp (x : Int) : Int :=
  if x < 0 then Int.tdiv (x + 1) 32 - 1 else Int.tdiv x 32

namespace ChunkCoord

/-- impl From of WorldCoord for ChunkCoord from chunk.rs, including the
final narrowing cast of each component to i16. -/
def from_world (w : WorldCoord) : ChunkCoord :=
  ⟨wrap16 (chunkComp w.x), wrap16 (chunkComp w.y), wrap16 (chunkComp w.z)⟩

/-- impl Into of WorldCoord for ChunkCoord from chunk.rs: multiply each
component by CHUNK_SIZE. -/
def to_world (c : ChunkCoord) : WorldCoord :=
  ⟨c.x * 32, c.y * 32, c.z * 32⟩

/-- ChunkCoord::left from chunk.rs (x - 1 on i16). -/
def left (c : ChunkCoord) : ChunkCoord := ⟨wrap16 (c.x - 1), c.y, c.z⟩

/-- ChunkCoord::right from chunk.rs (x + 1 on i16). -/
def right (c : ChunkCoord) : ChunkCoord := ⟨wrap16 (c.x + 1), c.y, c.z⟩

/-- ChunkCoord::front from chunk.rs (z - 1 on i16). -/
def front (c : ChunkCoord) : ChunkCoord := ⟨c.x, c.y, wrap16 (c.z - 1)⟩

/-- ChunkCoord::back from chunk.rs (z + 1 on i16). -/
def back (c : ChunkCoord) : ChunkCoord := ⟨c.x, c.y, wrap16 (c.z + 1)⟩

/-- ChunkCoord::up from chunk.rs (y + 1 on i16). -/
def up (c : ChunkCoord) : ChunkCoord := ⟨c.x, wrap16 (c.y + 1), c.z⟩

/-- ChunkCoord::down from chunk.rs (y - 1 on i16). -/
def down (c : ChunkCoord) : ChunkCoord := ⟨c.x, wrap16 (c.y - 1), c.z⟩

end ChunkCoord

/-- impl Into of ChunkLocalCoord for BlockOffsetCoord from chunk.rs: each
component is cast to usize and reduced mod CHUNK_SIZE. -/
def BlockOffsetCoord.to_local (o : BlockOffsetCoord) : ChunkLocalCoord :=
  ⟨(o.x % USIZE_MOD).toNat % 32, (o.y % USIZE_MOD).toNat % 32, (o.z % USIZE_MOD).toNat % 32⟩

/-- impl From of WorldCoord for ChunkLocalCoord from chunk.rs.  The Rust
code asserts that the offset is componentwise non-negative; an assertion
failure (a panic) is modelled as none. -/
def ChunkLocalCoord.from_world (value : WorldCoord) : Option ChunkLocalCoord :=
  let chunk_coord := ChunkCoord.from_world value
  let chunk_world_coord := chunk_coord.to_world
  let offset := value.sub chunk_world_coord
  if 0 ≤ offset.x ∧ 0 ≤ offset.y ∧ 0 ≤ offset.z then
    some offset.to_local
  else
    none

/-- WorldCoord::from_chunk_and_local from chunk.rs: convert the chunk
coordinate to world space and add the offset. -/
def WorldCoord.from_chunk_and_local (chunk_coord : ChunkCoord) (offset : BlockOffsetCoord) :
    WorldCoord :=
  chunk_coord.to_world.add offset

/-- View of a ChunkLocalCoord as a BlockOffsetCoord (the usize components
as i32), used to feed a local coordinate to from_chunk_and_local. -/
def ChunkLocalCoord.to_offset (l : ChunkLocalCoord) : BlockOffsetCoord :=
  ⟨(l.x : Int), (l.y : Int), (l.z : Int)⟩

namespace ChunkLocalCoord

/-- ChunkLocalCoord::left from chunk.rs: none when x = 0. -/
def left (s : ChunkLocalCoord) : Option ChunkLocalCoord :=
  if s.x = 0 then none else some ⟨s.x - 1, s.y, s.z⟩

/-- ChunkLocalCoord::right from chunk.rs: none when x = CHUNK_SIZE - 1. -/
def right (s : ChunkLocalCoord) : Option ChunkLocalCoord :=
  if s.x = CHUNK_SIZE - 1 then none else some ⟨s.x + 1, s.y, s.z⟩

/-- ChunkLocalCoord::up from chunk.rs: none when y = CHUNK_SIZE - 1. -/
def up (s : ChunkLocalCoord) : Option ChunkLocalCoord :=
  if s.y = CHUNK_SIZE - 1 then none else some ⟨s.x, s.y + 1, s.z⟩

/-- ChunkLocalCoord::down from chunk.rs: none when y = 0. -/
def down (s : ChunkLocalCoord) : Option ChunkLocalCoord :=
  if s.y = 0 then none else some ⟨s.x, s.y - 1, s.z⟩

/-- ChunkLocalCoord::front from chunk.rs: none when z = 0. -/
def front (s : ChunkLocalCoord) : Option ChunkLocalCoord :=
  if s.z = 0 then none else some ⟨s.x, s.y, s.z - 1⟩

/-- ChunkLocalCoord::back from chunk.rs: none when z = CHUNK_SIZE - 1. -/
def back (s : ChunkLocalCoord) : Option ChunkLocalCoord :=
  if s.z = CHUNK_SIZE - 1 then none else some ⟨s.x, s.y, s.z + 1⟩

end ChunkLocalCoord

/-- RegisteredBlock from voxel.rs.  texture_ids models the Rust [usize; 6]
array as a function; all source indexing uses the literals 0..5. -/
structure RegisteredBlock where
  name : String
  transparent : Bool
  solid : Bool
  texture_ids : Nat → Nat
  default_state : Voxel

namespace Blocks

/-- Blocks::AIR from voxel.rs. -/
def AIR : RegisteredBlock :=
  ⟨"Air", true, false, fun _ => 0, ⟨0⟩⟩

/-- Blocks::STONE from voxel.rs. -/
def STONE : RegisteredBlock :=
  ⟨"Stone", false, true, fun _ => 1, ⟨1⟩⟩

/-- Blocks::GRASS_BLOCK from voxel.rs (texture ids 3,3,2,4,3,3). -/
def GRASS_BLOCK : RegisteredBlock :=
  ⟨"Grass Block", false, true,
    fun i => if i = 2 then 2 else if i = 3 then 4 else 3, ⟨2⟩⟩

/-- Blocks::DIRT_BLOCK from voxel.rs. -/
def DIRT_BLOCK : RegisteredBlock :=
  ⟨"Dirt", false, true, fun _ => 4, ⟨3⟩⟩

/-- Blocks::LOG from voxel.rs (texture ids 5,5,6,6,5,5). -/
def LOG : RegisteredBlock :=
  ⟨"Log", false, true,
    fun i => if i = 2 ∨ i = 3 then 6 else 5, ⟨4⟩⟩

/-- Blocks::BLOCKS from voxel.rs: the registry slice. -/
def BLOCKS : List RegisteredBlock :=
  [AIR, STONE, GRASS_BLOCK, DIRT_BLOCK, LOG]

end Blocks

/-- Indexing Blocks::BLOCKS by a voxel id; a Rust slice index panic for an
unregistered id is modelled as none. -/
def blockInfo (id : Nat) : Option RegisteredBlock :=
  Blocks.BLOCKS.get? id

/-- Chunk from chunk.rs: the fixed fully populated voxel array is modelled
as its contents function on indices below CHUNK_SIZE_ITEMS. -/
structure Chunk where
  chunk_data : Nat → Voxel
  coord : ChunkCoord

namespace Chunk

/-- Chunk::new from chunk.rs: every voxel starts as the air default. -/
def new (coord : ChunkCoord) : Chunk :=
  ⟨fun _ => Blocks.AIR.default_state, coord⟩

/-- Chunk::translate_index from chunk.rs. -/
def translate_index (coord : ChunkLocalCoord) : Nat :=
  coord.x + coord.y * CHUNK_SIZE + coord.z * CHUNK_SIZE * CHUNK_SIZE

/-- Chunk::get_voxel from chunk.rs: none when an axis is out of range,
otherwise the array slot (the second guard models the checked array get,
whose index is always in bounds when the axis guard passes). -/
def get_voxel (ch : Chunk) (coord : ChunkLocalCoord) : Option Voxel :=
  if CHUNK_SIZE ≤ coord.x ∨ CHUNK_SIZE ≤ coord.y ∨ CHUNK_SIZE ≤ coord.z then
    none
  else if translate_index coord < CHUNK_SIZE_ITEMS then
    some (ch.chunk_data (translate_index coord))
  else
    none

/-- Chunk::set_voxel from chunk.rs: no-op when an axis is out of range,
otherwise an in-place write of the array slot (the written index is below
CHUNK_SIZE_ITEMS whenever the guard passes, so the Rust array index cannot
panic). -/
def set_voxel (ch : Chunk) (coord : ChunkLocalCoord) (voxel : Voxel) : Chunk :=
  if CHUNK_SIZE ≤ coord.x ∨ CHUNK_SIZE ≤ coord.y ∨ CHUNK_SIZE ≤ coord.z then
    ch
  else
    { ch with chunk_data := fun i => if i = translate_index coord then voxel else ch.chunk_data i }

end Chunk

/-- The shared chunk mapping of mod.rs (HashMap of ChunkCoord to Chunk),
modelled as a function map. -/
def ChunkMap : Type := ChunkCoord → Option Chunk

/-- Insertion into the chunk mapping (HashMap::insert semantics: a new
binding shadows any previous one). -/
def ChunkMap.insert (m : ChunkMap) (k : ChunkCoord) (ch : Chunk) : ChunkMap :=
  fun c => if c = k then some ch else m c

/-- The empty chunk mapping. -/
def ChunkMap.empty : ChunkMap := fun _ => none

/-- HashMap::contains_key on the chunk mapping. -/
def ChunkMap.contains_key (m : ChunkMap) (c : ChunkCoord) : Bool :=
  (m c).isSome

/-- World from mod.rs, restricted to the fields the in-scope operations
read or write.  Queues are lists with the front at the head; the tracking
HashSets are lists without duplicate insertion; the model map is tracked by
its key set (the render payloads live on the GPU side).  Worker threads,
channels and the generator are modelled at the operation level. -/
structure WorldState where
  chunks : ChunkMap
  models : List ChunkCoord
  chunk_gen_queue : List ChunkCoord
  meshgen_queue : List ChunkCoord
  loaded_chunks : List ChunkCoord
  meshed_chunks : List ChunkCoord

namespace WorldState

/-- World::new from mod.rs: every container starts empty. -/
def new : WorldState :=
  ⟨ChunkMap.empty, [], [], [], [], []⟩

/-- World::reset from mod.rs: clears the loaded set, both work queues, the
chunk map and the model map (and nothing else). -/
def reset (s : WorldState) : WorldState :=
  { s with
    loaded_chunks := []
    chunk_gen_queue := []
    meshgen_queue := []
    chunks := ChunkMap.empty
    models := [] }

/-- World::get_voxel from mod.rs: resolve chunk and local coordinates, look
the chunk up, delegate to Chunk::get_voxel.  The outer Option models the
panic of the local-coordinate assertion; the inner Option is absence. -/
def get_voxel (s : WorldState) (position : WorldCoord) : Option (Option Voxel) :=
  let chunk_coord := ChunkCoord.from_world position
  match ChunkLocalCoord.from_world position with
  | none => none
  | some local_coord =>
    some (match s.chunks chunk_coord with
          | none => none
          | some chunk => chunk.get_voxel local_coord)

/-- World::enqueue_chunk from mod.rs: no-op when the coordinate is already
in the loaded set, otherwise mark loaded and push to the back of the
generation queue. -/
def enqueue_chunk (s : WorldState) (chunk_coord : ChunkCoord) : WorldState :=
  if chunk_coord ∈ s.loaded_chunks then
    s
  else
    { s with
      loaded_chunks := chunk_coord :: s.loaded_chunks
      chunk_gen_queue := s.chunk_gen_queue ++ [chunk_coord] }

/-- All six axis neighbors present, in the order the source checks them. -/
def neighbors_loaded (m : ChunkMap) (coord : ChunkCoord) : Bool :=
  m.contains_key coord.left && m.contains_key coord.right &&
  m.contains_key coord.front && m.contains_key coord.back &&
  m.contains_key coord.up && m.contains_key coord.down

/-- World::enqueue_meshgen from mod.rs: no-op unless all six axis neighbors
are in the chunk map; no-op when the coordinate is already in the meshed
set; otherwise mark meshed and push to the back of the meshing queue. -/
def enqueue_meshgen (s : WorldState) (coord : ChunkCoord) : WorldState :=
  if ¬ neighbors_loaded s.chunks coord then
    s
  else if coord ∈ s.meshed_chunks then
    s
  else
    { s with
      meshed_chunks := coord :: s.meshed_chunks
      meshgen_queue := s.meshgen_queue ++ [coord] }

/-- World::receive_chunk from mod.rs: drain the generation result channel
(here: the drained list), insert every received chunk into the map keyed by
its own coordinate, then attempt enqueue_meshgen for each received
coordinate in order. -/
def receive_chunk (s : WorldState) (received : List Chunk) : WorldState :=
  let s1 := received.foldl
    (fun acc ch => { acc with chunks := acc.chunks.insert ch.coord ch }) s
  received.foldl (fun acc ch => acc.enqueue_meshgen ch.coord) s1

/-- The coordinates World::set_voxel pushes to the front of the meshing
queue for a boundary edit, in push order: for each direction whose local
stepper returns none, the adjacent chunk coordinate. -/
def boundary_pushes (coord : ChunkCoord) (local_coord : ChunkLocalCoord) :
    List ChunkCoord :=
  (if (local_coord.left).isNone then [coord.left] else []) ++
  (if (local_coord.right).isNone then [coord.right] else []) ++
  (if (local_coord.up).isNone then [coord.up] else []) ++
  (if (local_coord.down).isNone then [coord.down] else []) ++
  (if (local_coord.front).isNone then [coord.front] else []) ++
  (if (local_coord.back).isNone then [coord.back] else [])

/-- World::set_voxel from mod.rs: resolve coordinates (the resolution can
panic, modelled as none); when the chunk is absent, do nothing; otherwise
write the voxel, push the adjacent chunk coordinate to the front of the
meshing queue for every direction in which the local coordinate sits on a
chunk face, and finally push the edited chunk's own coordinate to the
front.  Each push is a push_front, so the final queue is the chunk's
coordinate, then the boundary pushes in reverse push order, then the old
queue. -/
def set_voxel (s : WorldState) (position : WorldCoord) (block : Voxel) :
    Option WorldState :=
  let chunk_coord := ChunkCoord.from_world position
  match ChunkLocalCoord.from_world position with
  | none => none
  | some local_coord =>
    some (match s.chunks chunk_coord with
      | none => s
      | some chunk =>
        { s with
          chunks := s.chunks.insert chunk_coord (chunk.set_voxel local_coord block)
          meshgen_queue :=
            chunk.coord :: (boundary_pushes chunk.coord local_coord).reverse
              ++ s.meshgen_queue })

/-- World::break_block from mod.rs: set_voxel with the air default. -/
def break_block (s : WorldState) (position : WorldCoord) : Option WorldState :=
  s.set_voxel position Blocks.AIR.default_state

/-- The chunk lookup of the meshing worker loop in World::dispatch_threads:
pop the front of the meshing queue and index the shared chunk map with the
popped coordinate.  The HashMap index panics when the key is absent,
modelled as none; some none means the queue was empty (the worker sleeps). -/
def meshing_worker_lookup (s : WorldState) : Option (Option (ChunkCoord × Chunk)) :=
  match s.meshgen_queue with
  | [] => some none
  | c :: _ =>
    match s.chunks c with
    | none => none
    | some ch => some (some (c, ch))

end WorldState

/-- WorldAccessor::get_voxel from mod.rs: the thread-shared read-only view;
its body is identical to World::get_voxel (outer Option: assertion panic,
inner Option: absence). -/
def WorldAccessor.get_voxel (chunks : ChunkMap) (coord : WorldCoord) :
    Option (Option Voxel) :=
  let chunk_coord := ChunkCoord.from_world coord
  match ChunkLocalCoord.from_world coord with
  | none => none
  | some local_coord =>
    some (match chunks chunk_coord with
          | none => none
          | some chunk => chunk.get_voxel local_coord)

/-- TEXTURE_COUNT from meshgen.rs. -/
def TEXTURE_COUNT : Nat × Nat := (32, 32)

/-- TEXTURE_UV_STEP from meshgen.rs.  All texture coordinates are dyadic
rationals exactly representable in f32, so the f32 arithmetic of the source
is modelled exactly over the rationals. -/
def TEXTURE_UV_STEP : ℚ × ℚ := (1 / 32, 1 / 32)

/-- FaceOrientation from meshgen.rs. -/
inductive FaceOrientation where
  | Left | Right | Top | Bottom | Front | Back
deriving DecidableEq

/-- Vertex3d from mesh.rs, as emitted by the extractor.  Every component
produced by face is a small integer or a multiple of 1/32, all exact in
f32, so rational fields model the source exactly. -/
structure Vertex3d where
  position : ℚ × ℚ × ℚ
  normal : ℚ × ℚ × ℚ
  uv : ℚ × ℚ
deriving DecidableEq

/-- texture_offset from meshgen.rs. -/
def texture_offset (texture_id : Nat) : ℚ × ℚ :=
  (((texture_id % TEXTURE_COUNT.1 : Nat) : ℚ) * TEXTURE_UV_STEP.1,
   ((texture_id / TEXTURE_COUNT.1 : Nat) : ℚ) * TEXTURE_UV_STEP.2)

/-- face from meshgen.rs: the four vertices and six indices of one quad,
per orientation, with the winding and per-face UV layout of the source. -/
def face (texture_id : Nat) (offset : Nat × Nat × Nat) (orientation : FaceOrientation) :
    List Vertex3d × List Nat :=
  let t := texture_offset texture_id
  let s := TEXTURE_UV_STEP
  let ox : ℚ := offset.1
  let oy : ℚ := offset.2.1
  let oz : ℚ := offset.2.2
  match orientation with
  | .Back =>
    ([⟨(ox, oy, oz + 1), (0, 0, 1), (t.1 + s.1, t.2)⟩,
      ⟨(ox + 1, oy, oz + 1), (0, 0, 1), (t.1, t.2)⟩,
      ⟨(ox + 1, oy + 1, oz + 1), (0, 0, 1), (t.1, t.2 + s.2)⟩,
      ⟨(ox, oy + 1, oz + 1), (0, 0, 1), (t.1 + s.1, t.2 + s.2)⟩],
     [0, 1, 2, 0, 2, 3])
  | .Front =>
    ([⟨(ox, oy, oz), (0, 0, -1), (t.1, t.2)⟩,
      ⟨(ox + 1, oy, oz), (0, 0, -1), (t.1 + s.1, t.2)⟩,
      ⟨(ox + 1, oy + 1, oz), (0, 0, -1), (t.1 + s.1, t.2 + s.2)⟩,
      ⟨(ox, oy + 1, oz), (0, 0, -1), (t.1, t.2 + s.2)⟩],
     [0, 2, 1, 0, 3, 2])
  | .Left =>
    ([⟨(ox, oy, oz + 1), (-1, 0, 0), (t.1, t.2)⟩,
      ⟨(ox, oy, oz), (-1, 0, 0), (t.1 + s.1, t.2)⟩,
      ⟨(ox, oy + 1, oz), (-1, 0, 0), (t.1 + s.1, t.2 + s.2)⟩,
      ⟨(ox, oy + 1, oz + 1), (-1, 0, 0), (t.1, t.2 + s.2)⟩],
     [0, 2, 1, 0, 3, 2])
  | .Right =>
    ([⟨(ox + 1, oy, oz), (1, 0, 0), (t.1, t.2)⟩,
      ⟨(ox + 1, oy, oz + 1), (1, 0, 0), (t.1 + s.1, t.2)⟩,
      ⟨(ox + 1, oy + 1, oz + 1), (1, 0, 0), (t.1 + s.1, t.2 + s.2)⟩,
      ⟨(ox + 1, oy + 1, oz), (1, 0, 0), (t.1, t.2 + s.2)⟩],
     [0, 2, 1, 0, 3, 2])
  | .Bottom =>
    ([⟨(ox, oy, oz), (0, -1, 0), (t.1, t.2)⟩,
      ⟨(ox + 1, oy, oz), (0, -1, 0), (t.1 + s.1, t.2)⟩,
      ⟨(ox + 1, oy, oz + 1), (0, -1, 0), (t.1 + s.1, t.2 + s.2)⟩,
      ⟨(ox, oy, oz + 1), (0, -1, 0), (t.1, t.2 + s.2)⟩],
     [0, 1, 2, 0, 2, 3])
  | .Top =>
    ([⟨(ox, oy + 1, oz), (0, 1, 0), (t.1, t.2)⟩,
      ⟨(ox + 1, oy + 1, oz), (0, 1, 0), (t.1 + s.1, t.2)⟩,
      ⟨(ox + 1, oy + 1, oz + 1), (0, 1, 0), (t.1 + s.1, t.2 + s.2)⟩,
      ⟨(ox, oy + 1, oz + 1), (0, 1, 0), (t.1, t.2 + s.2)⟩],
     [0, 2, 1, 0, 3, 2])

/-- The vertex and index buffers accumulated by generate_model. -/
structure MeshAcc where
  vertices : List Vertex3d
  indices : List Nat
deriving DecidableEq

/-- One face emission of generate_model: the six indices are pushed first,
each shifted by the vertex count before the push, then the four
vertices.  Index values never reach the u32 bound (at most 32768 voxels
times 24 vertices), so plain Nat addition is exact. -/
def emit_face (acc : MeshAcc) (texture_id : Nat) (off : Nat × Nat × Nat)
    (orientation : FaceOrientation) : MeshAcc :=
  let f := face texture_id off orientation
  { vertices := acc.vertices ++ f.1
    indices := acc.indices ++ f.2.map (fun i => i + acc.vertices.length) }

/-- One neighbor-sampling arm of generate_model: look the neighbor voxel up
through World::get_voxel; emit the face when the neighbor is absent or
transparent, skip it otherwise.  none models a panic inside the lookup (the
coordinate-conversion assertion) or a registry index panic. -/
def sample_face (s : WorldState) (acc : MeshAcc) (texture_id : Nat)
    (off : Nat × Nat × Nat) (orientation : FaceOrientation) (ncoord : WorldCoord) :
    Option MeshAcc :=
  match s.get_voxel ncoord with
  | none => none
  | some none => some (emit_face acc texture_id off orientation)
  | some (some voxel) =>
    match blockInfo voxel.id with
    | none => none
    | some block_info =>
      if block_info.transparent then some (emit_face acc texture_id off orientation)
      else some acc

/-- The body of the triple voxel loop of generate_model for one local
position (x, y, z): fetch the current voxel through World::get_voxel and
unwrap it (none models the panic when the meshed chunk itself cannot be
resolved), skip transparent voxels, otherwise sample all six neighbors in
source order Left, Right, Top, Bottom, Front, Back. -/
def voxel_step (s : WorldState) (ccoord : ChunkCoord) (x y z : Nat) (acc : MeshAcc) :
    Option MeshAcc := do
  let sampled := WorldCoord.from_chunk_and_local ccoord ⟨(x : Int), (y : Int), (z : Int)⟩
  let cur ← s.get_voxel sampled
  let current_voxel ← cur
  let current_block_info ← blockInfo current_voxel.id
  if current_block_info.transparent then
    pure acc
  else do
    let a1 ← sample_face s acc (current_block_info.texture_ids 0) (x, y, z) .Left sampled.left
    let a2 ← sample_face s a1 (current_block_info.texture_ids 1) (x, y, z) .Right sampled.right
    let a3 ← sample_face s a2 (current_block_info.texture_ids 2) (x, y, z) .Top sampled.up
    let a4 ← sample_face s a3 (current_block_info.texture_ids 3) (x, y, z) .Bottom sampled.down
    let a5 ← sample_face s a4 (current_block_info.texture_ids 4) (x, y, z) .Front sampled.front
    let a6 ← sample_face s a5 (current_block_info.texture_ids 5) (x, y, z) .Back sampled.back
    pure a6

/-- generate_model from meshgen.rs: walk every local voxel position of the
chunk (x outermost, z innermost), accumulate quads, and return none-inside
when no vertex was emitted (no model needed).  The outer Option models a
panic anywhere in the walk; the GPU model construction is out of scope, so
the some case carries the vertex and index buffers. -/
def generate_model (s : WorldState) (chunk : Chunk) : Option (Option MeshAcc) := do
  let acc ← (List.range CHUNK_SIZE).foldlM (fun ax x =>
    (List.range CHUNK_SIZE).foldlM (fun ay y =>
      (List.range CHUNK_SIZE).foldlM (fun az z =>
        voxel_step s chunk.coord x y z az) ay) ax) ⟨[], []⟩
  if acc.vertices.length = 0 then
    pure none
  else
    pure (some acc)

/-- A chunk at the world origin whose only non-air voxel is one stone voxel
at the interior local position (1, 1, 1). -/
def oneVoxelChunk : Chunk :=
  (Chunk.new ⟨0, 0, 0⟩).set_voxel ⟨1, 1, 1⟩ Blocks.STONE.default_state

/-- A world whose map holds exactly oneVoxelChunk. -/
def oneVoxelWorld : WorldState :=
  { WorldState.new with chunks := ChunkMap.empty.insert ⟨0, 0, 0⟩ oneVoxelChunk }

/-- A chunk at the world origin with every voxel stone. -/
def solidChunk (c : ChunkCoord) : Chunk :=
  ⟨fun _ => Blocks.STONE.default_state, c⟩

/-- A world holding an all-stone chunk at the origin and all-stone chunks
at its six axis neighbors: the origin chunk is fully enclosed. -/
def enclosedWorld : WorldState :=
  { WorldState.new with
    chunks := fun c =>
      if c = ⟨0, 0, 0⟩ ∨ c = ⟨-1, 0, 0⟩ ∨ c = ⟨1, 0, 0⟩ ∨ c = ⟨0, -1, 0⟩ ∨
         c = ⟨0, 1, 0⟩ ∨ c = ⟨0, 0, -1⟩ ∨ c = ⟨0, 0, 1⟩ then
        some (solidChunk c)
      else
        none }

/-- A world holding exactly one all-air chunk at the origin. -/
def emptyChunkWorld : WorldState :=
  { WorldState.new with chunks := ChunkMap.empty.insert ⟨0, 0, 0⟩ (Chunk.new ⟨0, 0, 0⟩) }

/-- The states of a World reachable through the public mutating operations
named by the specification (set_voxels_radius excepted: its sphere test is
f32 arithmetic; every state it reaches only adds further front pushes of
the same unchecked kind as set_voxel).  The received chunk lists of
receive_chunk are arbitrary, over-approximating what generation workers
can produce. -/
inductive Reachable : WorldState → Prop where
  | init : Reachable WorldState.new
  | enqueue_chunk {s : WorldState} (c : ChunkCoord) :
      Reachable s → Reachable (s.enqueue_chunk c)
  | enqueue_meshgen {s : WorldState} (c : ChunkCoord) :
      Reachable s → Reachable (s.enqueue_meshgen c)
  | receive_chunk {s : WorldState} (received : List Chunk) :
      Reachable s → Reachable (s.receive_chunk received)
  | set_voxel {s s2 : WorldState} (w : WorldCoord) (v : Voxel) :
      Reachable s → s.set_voxel w v = some s2 → Reachable s2
  | break_block {s s2 : WorldState} (w : WorldCoord) :
      Reachable s → s.break_block w = some s2 → Reachable s2
  | reset {s : WorldState} : Reachable s → Reachable s.reset

/-- Reachability extended with the non-panicking step of a meshing worker:
popping the front of the meshing queue when its chunk is present. -/
inductive ReachableW : WorldState → Prop where
  | lift {s : WorldState} : Reachable s → ReachableW s
  | worker_pop {s : WorldState} {c : ChunkCoord} {rest : List ChunkCoord} {ch : Chunk} :
      ReachableW s → s.meshgen_queue = c :: rest → s.chunks c = some ch →
      ReachableW { s with meshgen_queue := rest }

/-- The restricted operation set of the streaming pipeline: reachability
through enqueue_chunk, receive_chunk, enqueue_meshgen and reset only (no
voxel edits). -/
inductive ReachableNoEdit : WorldState → Prop where
  | init : ReachableNoEdit WorldState.new
  | enqueue_chunk {s : WorldState} (c : ChunkCoord) :
      ReachableNoEdit s → ReachableNoEdit (s.enqueue_chunk c)
  | enqueue_meshgen {s : WorldState} (c : ChunkCoord) :
      ReachableNoEdit s → ReachableNoEdit (s.enqueue_meshgen c)
  | receive_chunk {s : WorldState} (received : List Chunk) :
      ReachableNoEdit s → ReachableNoEdit (s.receive_chunk received)
  | reset {s : WorldState} : ReachableNoEdit s → ReachableNoEdit s.reset

/-- A reachable world that has marked the origin chunk as meshed: the
origin chunk and its six axis neighbors arrive in one receive_chunk
drain. -/
def c2_state : WorldState :=
  WorldState.new.receive_chunk
    [Chunk.new ⟨0, 0, 0⟩, Chunk.new ⟨-1, 0, 0⟩, Chunk.new ⟨1, 0, 0⟩,
     Chunk.new ⟨0, -1, 0⟩, Chunk.new ⟨0, 1, 0⟩, Chunk.new ⟨0, 0, -1⟩,
     Chunk.new ⟨0, 0, 1⟩]

/-- Witness for C6: with the six neighbors of the origin freshly received
(and the origin not yet meshed), enqueue_meshgen enqueues the origin. -/
def c6_state : WorldState :=
  WorldState.new.receive_chunk
    [Chunk.new ⟨-1, 0, 0⟩, Chunk.new ⟨1, 0, 0⟩, Chunk.new ⟨0, -1, 0⟩,
     Chunk.new ⟨0, 1, 0⟩, Chunk.new ⟨0, 0, -1⟩, Chunk.new ⟨0, 0, 1⟩]

/-- A reachable world holding one loaded chunk at the origin that took an
interior voxel edit: the edit pushed the origin to the front of the meshing
queue although none of its neighbors is loaded. -/
def c3_state : WorldState :=
  match (WorldState.new.receive_chunk [Chunk.new ⟨0, 0, 0⟩]).set_voxel ⟨16, 16, 16⟩ ⟨1⟩ with
  | some s => s
  | none => WorldState.new

/-- A reachable world with one loaded origin chunk after a boundary edit at
local x = 0: the meshing queue is the origin followed by its unloaded left
neighbor. -/
def c4_state1 : WorldState :=
  match (WorldState.new.receive_chunk [Chunk.new ⟨0, 0, 0⟩]).set_voxel ⟨0, 16, 16⟩ ⟨1⟩ with
  | some s => s
  | none => WorldState.new

/-- c4_state1 after one non-panicking worker pop: the queue head is now the
unloaded left neighbor. -/
def c4_state2 : WorldState :=
  { c4_state1 with meshgen_queue := c4_state1.meshgen_queue.tail }

/-- The mesh the extractor accumulates for oneVoxelWorld: the six quads of
the lone stone voxel. -/
def oneVoxelMesh : MeshAcc :=
  (voxel_step oneVoxelWorld ⟨0, 0, 0⟩ 1 1 1 ⟨[], []⟩).getD ⟨[], []⟩

/-! Helper lemmas about the coordinate arithmetic. -/

theorem chunkComp_eq_ediv (x : Int) : chunkComp x = x / 32 := by
  unfold chunkComp
  by_cases h : x < 0
  · rw [if_pos h]
    have h2 : Int.tdiv (x + 1) 32 = -Int.tdiv (-(x + 1)) 32 := by
      conv_lhs => rw [show (x + 1 : Int) = -(-(x + 1)) by ring]
      rw [Int.neg_tdiv]
    rw [h2, Int.tdiv_eq_ediv (by omega) (by omega)]
    omega
  · rw [if_neg h, Int.tdiv_eq_ediv (by omega) (by omega)]

theorem wrap16_eq_self (v : Int) (h1 : -32768 ≤ v) (h2 : v ≤ 32767) : wrap16 v = v := by
  unfold wrap16
  omega

theorem wrap32_eq_self (v : Int) (h1 : -2147483648 ≤ v) (h2 : v ≤ 2147483647) :
    wrap32 v = v := by
  unfold wrap32
  omega

theorem from_world_eq_ediv (w : WorldCoord)
    (hx1 : -1048576 ≤ w.x) (hx2 : w.x ≤ 1048575)
    (hy1 : -1048576 ≤ w.y) (hy2 : w.y ≤ 1048575)
    (hz1 : -1048576 ≤ w.z) (hz2 : w.z ≤ 1048575) :
    ChunkCoord.from_world w = ⟨w.x / 32, w.y / 32, w.z / 32⟩ := by
  unfold ChunkCoord.from_world
  rw [chunkComp_eq_ediv, chunkComp_eq_ediv, chunkComp_eq_ediv,
    wrap16_eq_self _ (by omega) (by omega),
    wrap16_eq_self _ (by omega) (by omega),
    wrap16_eq_self _ (by omega) (by omega)]

theorem to_local_small (o : BlockOffsetCoord)
    (hx1 : 0 ≤ o.x) (hx2 : o.x < 32) (hy1 : 0 ≤ o.y) (hy2 : o.y < 32)
    (hz1 : 0 ≤ o.z) (hz2 : o.z < 32) :
    o.to_local = ⟨o.x.toNat, o.y.toNat, o.z.toNat⟩ := by
  unfold BlockOffsetCoord.to_local USIZE_MOD
  congr 1 <;> omega

theorem local_from_world_eq (w : WorldCoord)
    (hx1 : -1048576 ≤ w.x) (hx2 : w.x ≤ 1048575)
    (hy1 : -1048576 ≤ w.y) (hy2 : w.y ≤ 1048575)
    (hz1 : -1048576 ≤ w.z) (hz2 : w.z ≤ 1048575) :
    ChunkLocalCoord.from_world w =
      some ⟨(w.x % 32).toNat, (w.y % 32).toNat, (w.z % 32).toNat⟩ := by
  obtain ⟨x, y, z⟩ := w
  simp only at hx1 hx2 hy1 hy2 hz1 hz2
  simp only [ChunkLocalCoord.from_world, ChunkCoord.from_world, ChunkCoord.to_world,
    WorldCoord.sub, BlockOffsetCoord.to_local]
  rw [chunkComp_eq_ediv x, chunkComp_eq_ediv y, chunkComp_eq_ediv z,
    wrap16_eq_self (x / 32) (by omega) (by omega),
    wrap16_eq_self (y / 32) (by omega) (by omega),
    wrap16_eq_self (z / 32) (by omega) (by omega)]
  have hox : wrap32 (x - x / 32 * 32) = x % 32 := by unfold wrap32; omega
  have hoy : wrap32 (y - y / 32 * 32) = y % 32 := by unfold wrap32; omega
  have hoz : wrap32 (z - z / 32 * 32) = z % 32 := by unfold wrap32; omega
  rw [hox, hoy, hoz, if_pos ⟨by omega, by omega, by omega⟩]
  have hux : ((x % 32 : Int) % USIZE_MOD).toNat % 32 = (x % 32).toNat := by
    unfold USIZE_MOD; omega
  have huy : ((y % 32 : Int) % USIZE_MOD).toNat % 32 = (y % 32).toNat := by
    unfold USIZE_MOD; omega
  have huz : ((z % 32 : Int) % USIZE_MOD).toNat % 32 = (z % 32).toNat := by
    unfold USIZE_MOD; omega
  rw [hux, huy, huz]

/-- C5 (corrected): for every WorldCoord whose components lie in the range
where the chunk coordinate fits in i16 (|component| at most 2^20), the
ChunkCoord conversion is componentwise floor division by CHUNK_SIZE, so
negative components round toward negative infinity.  Outside that range the
final i16 narrowing cast wraps (see the counterexample). -/
theorem C5_floor_division (w : WorldCoord)
    (hx1 : -1048576 ≤ w.x) (hx2 : w.x ≤ 1048575)
    (hy1 : -1048576 ≤ w.y) (hy2 : w.y ≤ 1048575)
    (hz1 : -1048576 ≤ w.z) (hz2 : w.z ≤ 1048575) :
    ChunkCoord.from_world w = ⟨Int.fdiv w.x 32, Int.fdiv w.y 32, Int.fdiv w.z 32⟩ := by
  rw [from_world_eq_ediv w hx1 hx2 hy1 hy2 hz1 hz2,
    Int.fdiv_eq_ediv w.x (by omega), Int.fdiv_eq_ediv w.y (by omega),
    Int.fdiv_eq_ediv w.z (by omega)]

/-- Witness for C5 at the spec example shape: world x = -CHUNK_SIZE maps to
chunk x = -1, not 0. -/
theorem C5_floor_division_witness :
    ChunkCoord.from_world ⟨-32, 0, 20⟩ =
      ⟨Int.fdiv (-32) 32, Int.fdiv 0 32, Int.fdiv 20 32⟩ :=
  C5_floor_division ⟨-32, 0, 20⟩ (by decide) (by decide) (by decide) (by decide)
    (by decide) (by decide)

/-- Counterexample for C5 as stated: at world x = 2^20 the floor quotient is
2^15, which the i16 narrowing cast wraps to -2^15. -/
theorem C5_floor_division_cex :
    ChunkCoord.from_world ⟨1048576, 0, 0⟩ ≠
      ⟨Int.fdiv 1048576 32, Int.fdiv 0 32, Int.fdiv 0 32⟩ ∧
    (ChunkCoord.from_world ⟨1048576, 0, 0⟩).x = -32768 ∧
    Int.fdiv (1048576 : Int) 32 = 32768 :=
  ⟨by decide, by decide, by decide⟩

/-- C1 (corrected): for every WorldCoord whose components lie in the range
where the chunk coordinate fits in i16 (|component| at most 2^20), the
local conversion succeeds and reassembling the world coordinate from the
chunk coordinate and the local coordinate restores it exactly, negative
components included.  Outside that range the i16 narrowing cast of the
chunk coordinate breaks the round trip (see the counterexample). -/
theorem C1_round_trip (w : WorldCoord)
    (hx1 : -1048576 ≤ w.x) (hx2 : w.x ≤ 1048575)
    (hy1 : -1048576 ≤ w.y) (hy2 : w.y ≤ 1048575)
    (hz1 : -1048576 ≤ w.z) (hz2 : w.z ≤ 1048575) :
    ∃ l, ChunkLocalCoord.from_world w = some l ∧
      WorldCoord.from_chunk_and_local (ChunkCoord.from_world w) l.to_offset = w := by
  refine ⟨_, local_from_world_eq w hx1 hx2 hy1 hy2 hz1 hz2, ?_⟩
  rw [from_world_eq_ediv w hx1 hx2 hy1 hy2 hz1 hz2]
  obtain ⟨x, y, z⟩ := w
  simp only at hx1 hx2 hy1 hy2 hz1 hz2
  simp only [WorldCoord.from_chunk_and_local, ChunkCoord.to_world, WorldCoord.add,
    ChunkLocalCoord.to_offset, WorldCoord.mk.injEq]
  refine ⟨?_, ?_, ?_⟩ <;> (unfold wrap32; omega)

/-- Witness for C1 at world x = -1: chunk x = -1, local x = 31, and the
reconstruction restores -1. -/
theorem C1_round_trip_witness :
    ∃ l, ChunkLocalCoord.from_world ⟨-1, 0, 0⟩ = some l ∧
      WorldCoord.from_chunk_and_local (ChunkCoord.from_world ⟨-1, 0, 0⟩) l.to_offset =
        ⟨-1, 0, 0⟩ :=
  C1_round_trip ⟨-1, 0, 0⟩ (by decide) (by decide) (by decide) (by decide) (by decide)
    (by decide)

/-- Counterexample for C1 as stated (any i32 components): at world
x = 2^20 the chunk coordinate wraps to -2^15, the local conversion still
succeeds with local 0, and the reconstruction yields -2^20 instead of
2^20. -/
theorem C1_round_trip_cex :
    ChunkLocalCoord.from_world ⟨1048576, 0, 0⟩ = some ⟨0, 0, 0⟩ ∧
    WorldCoord.from_chunk_and_local (ChunkCoord.from_world ⟨1048576, 0, 0⟩)
      (ChunkLocalCoord.to_offset ⟨0, 0, 0⟩) ≠ ⟨1048576, 0, 0⟩ ∧
    WorldCoord.from_chunk_and_local (ChunkCoord.from_world ⟨1048576, 0, 0⟩)
      (ChunkLocalCoord.to_offset ⟨0, 0, 0⟩) = ⟨-1048576, 0, 0⟩ :=
  ⟨by decide, by decide, by decide⟩

/-- C10 (confirmed): a new chunk is all air; get_voxel is none exactly when
an axis is out of range and otherwise returns the stored slot; set_voxel is
a no-op out of range and otherwise writes the slot read back by
get_voxel. -/
theorem C10_chunk_storage (c : ChunkCoord) (ch : Chunk) (l : ChunkLocalCoord) (v : Voxel) :
    (l.x < CHUNK_SIZE → l.y < CHUNK_SIZE → l.z < CHUNK_SIZE →
      (Chunk.new c).get_voxel l = some Blocks.AIR.default_state) ∧
    (ch.get_voxel l = none ↔ CHUNK_SIZE ≤ l.x ∨ CHUNK_SIZE ≤ l.y ∨ CHUNK_SIZE ≤ l.z) ∧
    (l.x < CHUNK_SIZE → l.y < CHUNK_SIZE → l.z < CHUNK_SIZE →
      ch.get_voxel l = some (ch.chunk_data (Chunk.translate_index l))) ∧
    (CHUNK_SIZE ≤ l.x ∨ CHUNK_SIZE ≤ l.y ∨ CHUNK_SIZE ≤ l.z → ch.set_voxel l v = ch) ∧
    (l.x < CHUNK_SIZE → l.y < CHUNK_SIZE → l.z < CHUNK_SIZE →
      (ch.set_voxel l v).get_voxel l = some v) := by
  have hidx : l.x < CHUNK_SIZE → l.y < CHUNK_SIZE → l.z < CHUNK_SIZE →
      Chunk.translate_index l < CHUNK_SIZE_ITEMS := by
    unfold Chunk.translate_index CHUNK_SIZE_ITEMS CHUNK_SIZE
    omega
  refine ⟨?_, ?_, ?_, ?_, ?_⟩
  · intro h1 h2 h3
    unfold Chunk.get_voxel
    rw [if_neg (by omega), if_pos (hidx h1 h2 h3)]
    rfl
  · unfold Chunk.get_voxel
    constructor
    · intro h
      by_contra hc
      rw [if_neg (by omega), if_pos (hidx (by omega) (by omega) (by omega))] at h
      exact Option.noConfusion h
    · intro h
      rw [if_pos h]
  · intro h1 h2 h3
    unfold Chunk.get_voxel
    rw [if_neg (by omega), if_pos (hidx h1 h2 h3)]
  · intro h
    unfold Chunk.set_voxel
    rw [if_pos h]
  · intro h1 h2 h3
    have hset : ch.set_voxel l v =
        { ch with
          chunk_data := fun i =>
            if i = Chunk.translate_index l then v else ch.chunk_data i } := by
      unfold Chunk.set_voxel
      rw [if_neg (by omega)]
    rw [hset]
    unfold Chunk.get_voxel
    rw [if_neg (by omega), if_pos (hidx h1 h2 h3)]
    simp

/-- Witness for C10 at a concrete chunk, local coordinate and voxel. -/
theorem C10_chunk_storage_witness :
    (Chunk.new ⟨0, 0, 0⟩).get_voxel ⟨1, 2, 3⟩ = some Blocks.AIR.default_state ∧
    ((Chunk.new ⟨0, 0, 0⟩).get_voxel ⟨32, 2, 3⟩ = none ↔
      CHUNK_SIZE ≤ 32 ∨ CHUNK_SIZE ≤ 2 ∨ CHUNK_SIZE ≤ 3) ∧
    ((Chunk.new ⟨0, 0, 0⟩).set_voxel ⟨1, 2, 3⟩ ⟨1⟩).get_voxel ⟨1, 2, 3⟩ = some ⟨1⟩ :=
  ⟨(C10_chunk_storage ⟨0, 0, 0⟩ (Chunk.new ⟨0, 0, 0⟩) ⟨1, 2, 3⟩ ⟨1⟩).1 (by decide)
      (by decide) (by decide),
   (C10_chunk_storage ⟨0, 0, 0⟩ (Chunk.new ⟨0, 0, 0⟩) ⟨32, 2, 3⟩ ⟨1⟩).2.1,
   (C10_chunk_storage ⟨0, 0, 0⟩ (Chunk.new ⟨0, 0, 0⟩) ⟨1, 2, 3⟩ ⟨1⟩).2.2.2.2 (by decide)
      (by decide) (by decide)⟩

/-- C2 (corrected): reset clears the generation queue, the meshing queue,
the loaded set, the chunk map and the model map, but it does not clear the
meshed set, which survives unchanged (see the counterexample). -/
theorem C2_reset (s : WorldState) :
    s.reset.chunk_gen_queue = [] ∧ s.reset.meshgen_queue = [] ∧
    s.reset.loaded_chunks = [] ∧ s.reset.chunks = ChunkMap.empty ∧
    s.reset.models = [] ∧ s.reset.meshed_chunks = s.meshed_chunks :=
  ⟨rfl, rfl, rfl, rfl, rfl, rfl⟩

/-- Counterexample for C2 as stated: after reset of a reachable state the
meshed set still holds the origin coordinate, so it is not empty. -/
theorem C2_reset_cex :
    Reachable c2_state.reset ∧
    c2_state.reset.meshed_chunks = [⟨0, 0, 0⟩] ∧
    c2_state.reset.meshed_chunks ≠ [] :=
  ⟨Reachable.reset (Reachable.receive_chunk _ Reachable.init), by decide, by decide⟩

/-- C6 (confirmed): enqueue_meshgen is a no-op unless all six axis
neighbors are present in the chunk map, a no-op when the coordinate is
already in the meshed set, and otherwise appends the coordinate to the back
of the meshing queue and adds it to the meshed set; in particular a call
made once the last missing neighbor is present does enqueue. -/
theorem C6_enqueue_meshgen (s : WorldState) (c : ChunkCoord) :
    (WorldState.neighbors_loaded s.chunks c = false → s.enqueue_meshgen c = s) ∧
    (c ∈ s.meshed_chunks → s.enqueue_meshgen c = s) ∧
    (WorldState.neighbors_loaded s.chunks c = true → c ∉ s.meshed_chunks →
      s.enqueue_meshgen c =
        { s with
          meshed_chunks := c :: s.meshed_chunks
          meshgen_queue := s.meshgen_queue ++ [c] }) := by
  refine ⟨?_, ?_, ?_⟩
  · intro h
    unfold WorldState.enqueue_meshgen
    rw [if_pos (by simp [h])]
  · intro h
    unfold WorldState.enqueue_meshgen
    by_cases hn : WorldState.neighbors_loaded s.chunks c = true
    · rw [if_neg (by simp [hn]), if_pos h]
    · rw [if_pos (by simpa using hn)]
  · intro hn hm
    unfold WorldState.enqueue_meshgen
    rw [if_neg (by simp [hn]), if_neg hm]

/-- Witness for C6 at a concrete state: the call appends the origin to the
meshing queue and marks it meshed. -/
theorem C6_enqueue_meshgen_witness :
    c6_state.enqueue_meshgen ⟨0, 0, 0⟩ =
      { c6_state with
        meshed_chunks := ⟨0, 0, 0⟩ :: c6_state.meshed_chunks
        meshgen_queue := c6_state.meshgen_queue ++ [⟨0, 0, 0⟩] } :=
  (C6_enqueue_meshgen c6_state ⟨0, 0, 0⟩).2.2 (by decide) (by decide)

/-- C7 (corrected): for a position whose components lie in the i16-safe
range, set_voxel is a no-op when the containing chunk is absent (the edit
is dropped), and when the chunk is loaded it writes the voxel and pushes
the chunk's own coordinate to the front of the meshing queue after pushing
the adjacent chunk coordinate for every direction in which the local
coordinate sits on a chunk face; at an interior local coordinate the
boundary push list is empty, so only the edited chunk is re-enqueued.
Outside the safe range the local-coordinate conversion can panic instead of
dropping the edit (see the counterexample). -/
theorem C7_set_voxel (s : WorldState) (w : WorldCoord) (v : Voxel)
    (hx1 : -1048576 ≤ w.x) (hx2 : w.x ≤ 1048575)
    (hy1 : -1048576 ≤ w.y) (hy2 : w.y ≤ 1048575)
    (hz1 : -1048576 ≤ w.z) (hz2 : w.z ≤ 1048575) :
    (s.chunks (ChunkCoord.from_world w) = none → s.set_voxel w v = some s) ∧
    (∀ ch, s.chunks (ChunkCoord.from_world w) = some ch →
      s.set_voxel w v = some
        { s with
          chunks := s.chunks.insert (ChunkCoord.from_world w)
            (ch.set_voxel ⟨(w.x % 32).toNat, (w.y % 32).toNat, (w.z % 32).toNat⟩ v)
          meshgen_queue := ch.coord ::
            (WorldState.boundary_pushes ch.coord
              ⟨(w.x % 32).toNat, (w.y % 32).toNat, (w.z % 32).toNat⟩).reverse
            ++ s.meshgen_queue }) ∧
    (∀ (c : ChunkCoord) (l : ChunkLocalCoord),
      0 < l.x → l.x < CHUNK_SIZE - 1 → 0 < l.y → l.y < CHUNK_SIZE - 1 →
      0 < l.z → l.z < CHUNK_SIZE - 1 →
      WorldState.boundary_pushes c l = []) := by
  refine ⟨?_, ?_, ?_⟩
  · intro h
    unfold WorldState.set_voxel
    rw [local_from_world_eq w hx1 hx2 hy1 hy2 hz1 hz2]
    dsimp only
    rw [h]
  · intro ch h
    unfold WorldState.set_voxel
    rw [local_from_world_eq w hx1 hx2 hy1 hy2 hz1 hz2]
    dsimp only
    rw [h]
  · intro c l h1 h2 h3 h4 h5 h6
    unfold CHUNK_SIZE at h2 h4 h6
    have e1 : l.left = some ⟨l.x - 1, l.y, l.z⟩ := by
      unfold ChunkLocalCoord.left
      rw [if_neg (by omega)]
    have e2 : l.right = some ⟨l.x + 1, l.y, l.z⟩ := by
      unfold ChunkLocalCoord.right CHUNK_SIZE
      rw [if_neg (by omega)]
    have e3 : l.up = some ⟨l.x, l.y + 1, l.z⟩ := by
      unfold ChunkLocalCoord.up CHUNK_SIZE
      rw [if_neg (by omega)]
    have e4 : l.down = some ⟨l.x, l.y - 1, l.z⟩ := by
      unfold ChunkLocalCoord.down
      rw [if_neg (by omega)]
    have e5 : l.front = some ⟨l.x, l.y, l.z - 1⟩ := by
      unfold ChunkLocalCoord.front
      rw [if_neg (by omega)]
    have e6 : l.back = some ⟨l.x, l.y, l.z + 1⟩ := by
      unfold ChunkLocalCoord.back CHUNK_SIZE
      rw [if_neg (by omega)]
    unfold WorldState.boundary_pushes
    rw [e1, e2, e3, e4, e5, e6]
    rfl

/-- Witness for C7: an edit at local x = 0 of the loaded origin chunk
writes the voxel and re-enqueues the chunk itself and its left neighbor
(and, via the third conjunct, an interior edit pushes no neighbor). -/
theorem C7_set_voxel_witness :
    oneVoxelWorld.set_voxel ⟨0, 5, 5⟩ ⟨1⟩ = some
      { oneVoxelWorld with
        chunks := oneVoxelWorld.chunks.insert (ChunkCoord.from_world ⟨0, 5, 5⟩)
          (oneVoxelChunk.set_voxel ⟨0, 5, 5⟩ ⟨1⟩)
        meshgen_queue := oneVoxelChunk.coord ::
          (WorldState.boundary_pushes oneVoxelChunk.coord ⟨0, 5, 5⟩).reverse ++
          oneVoxelWorld.meshgen_queue } ∧
    WorldState.boundary_pushes ⟨0, 0, 0⟩ ⟨5, 5, 5⟩ = [] :=
  ⟨(C7_set_voxel oneVoxelWorld ⟨0, 5, 5⟩ ⟨1⟩ (by decide) (by decide) (by decide)
      (by decide) (by decide) (by decide)).2.1 oneVoxelChunk rfl,
   (C7_set_voxel oneVoxelWorld ⟨5, 5, 5⟩ ⟨1⟩ (by decide) (by decide) (by decide)
      (by decide) (by decide) (by decide)).2.2 ⟨0, 0, 0⟩ ⟨5, 5, 5⟩ (by decide)
      (by decide) (by decide) (by decide) (by decide) (by decide)⟩

/-- Counterexample for C7 as stated: at world x = -1048608 the containing
chunk is absent from the empty world, yet set_voxel is not a no-op: the
local-coordinate assertion fails (a panic, modelled as none). -/
theorem C7_set_voxel_cex :
    WorldState.new.chunks (ChunkCoord.from_world ⟨-1048608, 0, 0⟩) = none ∧
    WorldState.new.set_voxel ⟨-1048608, 0, 0⟩ ⟨1⟩ = none :=
  ⟨rfl, rfl⟩

theorem contains_of_insert {m : ChunkMap} {k : ChunkCoord} {ch : Chunk} {c : ChunkCoord}
    (h : (m c).isSome = true) : ((m.insert k ch) c).isSome = true := by
  unfold ChunkMap.insert
  by_cases hc : c = k <;> simp [hc, h]

theorem neighbors_loaded_mono {m m2 : ChunkMap}
    (hm : ∀ c, (m c).isSome = true → (m2 c).isSome = true) (c : ChunkCoord)
    (h : WorldState.neighbors_loaded m c = true) :
    WorldState.neighbors_loaded m2 c = true := by
  unfold WorldState.neighbors_loaded ChunkMap.contains_key at h ⊢
  simp only [Bool.and_eq_true] at h ⊢
  exact ⟨⟨⟨⟨⟨hm _ h.1.1.1.1.1, hm _ h.1.1.1.1.2⟩, hm _ h.1.1.1.2⟩, hm _ h.1.1.2⟩,
    hm _ h.1.2⟩, hm _ h.2⟩

theorem receive_fold_insert (l : List Chunk) (s : WorldState) :
    (l.foldl (fun acc ch => { acc with chunks := acc.chunks.insert ch.coord ch }) s).meshgen_queue
      = s.meshgen_queue ∧
    ∀ c, (s.chunks c).isSome = true →
      ((l.foldl (fun acc ch => { acc with chunks := acc.chunks.insert ch.coord ch }) s).chunks
        c).isSome = true := by
  induction l generalizing s with
  | nil => exact ⟨rfl, fun c h => h⟩
  | cons ch t ih =>
    simp only [List.foldl_cons]
    exact ⟨(ih _).1, fun c h => (ih _).2 c (contains_of_insert h)⟩

theorem enqueue_meshgen_inv (s : WorldState) (c : ChunkCoord)
    (h : ∀ d ∈ s.meshgen_queue, WorldState.neighbors_loaded s.chunks d = true) :
    ∀ d ∈ (s.enqueue_meshgen c).meshgen_queue,
      WorldState.neighbors_loaded (s.enqueue_meshgen c).chunks d = true := by
  unfold WorldState.enqueue_meshgen
  by_cases h1 : WorldState.neighbors_loaded s.chunks c = true
  · rw [if_neg (not_not_intro h1)]
    by_cases h2 : c ∈ s.meshed_chunks
    · rw [if_pos h2]
      exact h
    · rw [if_neg h2]
      intro d hd
      simp only [List.mem_append, List.mem_singleton] at hd
      rcases hd with hd | rfl
      · exact h d hd
      · exact h1
  · rw [if_pos (by simpa using h1)]
    exact h

theorem enqueue_fold_inv (l : List Chunk) (s : WorldState)
    (h : ∀ d ∈ s.meshgen_queue, WorldState.neighbors_loaded s.chunks d = true) :
    ∀ d ∈ (l.foldl (fun acc ch => acc.enqueue_meshgen ch.coord) s).meshgen_queue,
      WorldState.neighbors_loaded
        ((l.foldl (fun acc ch => acc.enqueue_meshgen ch.coord) s).chunks) d = true := by
  induction l generalizing s with
  | nil => exact h
  | cons ch t ih =>
    simp only [List.foldl_cons]
    exact ih _ (enqueue_meshgen_inv s ch.coord h)

/-- C3 (corrected): the boundary-completeness invariant holds in every
state reachable through the streaming operations enqueue_chunk,
receive_chunk, enqueue_meshgen and reset: every coordinate in the meshing
queue has all six axis-neighbor chunks in the chunk map.  The voxel-edit
operations break the invariant by pushing unchecked coordinates to the
front of the queue (see the counterexample). -/
theorem C3_meshing_invariant (s : WorldState) (h : ReachableNoEdit s) :
    ∀ c ∈ s.meshgen_queue, WorldState.neighbors_loaded s.chunks c = true := by
  induction h with
  | init =>
    intro c hc
    simp [WorldState.new] at hc
  | enqueue_chunk c _ ih =>
    rename_i s2 _
    have hq : (s2.enqueue_chunk c).meshgen_queue = s2.meshgen_queue ∧
        (s2.enqueue_chunk c).chunks = s2.chunks := by
      unfold WorldState.enqueue_chunk
      split <;> exact ⟨rfl, rfl⟩
    rw [hq.1, hq.2]
    exact ih
  | enqueue_meshgen c _ ih =>
    rename_i s2 _
    exact enqueue_meshgen_inv s2 c ih
  | receive_chunk received _ ih =>
    rename_i s2 _
    unfold WorldState.receive_chunk
    refine enqueue_fold_inv received _ ?_
    have h1 := receive_fold_insert received s2
    rw [h1.1]
    intro d hd
    exact neighbors_loaded_mono h1.2 d (ih d hd)
  | reset _ ih =>
    intro c hc
    simp [WorldState.reset] at hc

/-- Counterexample for C3 as stated: c3_state is reachable through the
public operations (receive_chunk then set_voxel), the origin coordinate is
in its meshing queue, and the origin's neighbors are not all loaded. -/
theorem C3_meshing_invariant_cex :
    Reachable c3_state ∧
    ⟨0, 0, 0⟩ ∈ c3_state.meshgen_queue ∧
    WorldState.neighbors_loaded c3_state.chunks ⟨0, 0, 0⟩ = false :=
  ⟨Reachable.set_voxel ⟨16, 16, 16⟩ ⟨1⟩
      (Reachable.receive_chunk [Chunk.new ⟨0, 0, 0⟩] Reachable.init) rfl,
    by decide, by decide⟩

/-- C4 (corrected): an unresolved voxel lookup is absence, not an error,
for Chunk::get_voxel (out-of-range index), World::get_voxel and
WorldAccessor::get_voxel (missing chunk, within the i16-safe coordinate
range), and for the extractor's neighbor sampling, which emits the face and
continues when the neighbor chunk is missing.  The exception the
counterexample exhibits: the meshing worker's chunk lookup indexes the map
and panics when the popped coordinate's chunk is absent. -/
theorem C4_absence_not_error :
    (∀ (ch : Chunk) (l : ChunkLocalCoord),
      CHUNK_SIZE ≤ l.x ∨ CHUNK_SIZE ≤ l.y ∨ CHUNK_SIZE ≤ l.z →
      ch.get_voxel l = none) ∧
    (∀ (s : WorldState) (w : WorldCoord),
      -1048576 ≤ w.x → w.x ≤ 1048575 → -1048576 ≤ w.y → w.y ≤ 1048575 →
      -1048576 ≤ w.z → w.z ≤ 1048575 →
      s.chunks (ChunkCoord.from_world w) = none →
      s.get_voxel w = some none) ∧
    (∀ (chunks : ChunkMap) (w : WorldCoord),
      -1048576 ≤ w.x → w.x ≤ 1048575 → -1048576 ≤ w.y → w.y ≤ 1048575 →
      -1048576 ≤ w.z → w.z ≤ 1048575 →
      chunks (ChunkCoord.from_world w) = none →
      WorldAccessor.get_voxel chunks w = some none) ∧
    (∀ (s : WorldState) (acc : MeshAcc) (texture_id : Nat) (off : Nat × Nat × Nat)
      (o : FaceOrientation) (w : WorldCoord),
      -1048576 ≤ w.x → w.x ≤ 1048575 → -1048576 ≤ w.y → w.y ≤ 1048575 →
      -1048576 ≤ w.z → w.z ≤ 1048575 →
      s.chunks (ChunkCoord.from_world w) = none →
      sample_face s acc texture_id off o w = some (emit_face acc texture_id off o)) ∧
    (∀ (s : WorldState) (c : ChunkCoord) (rest : List ChunkCoord),
      s.meshgen_queue = c :: rest → s.chunks c = none →
      s.meshing_worker_lookup = none) := by
  have hget : ∀ (m : ChunkMap) (w : WorldCoord),
      -1048576 ≤ w.x → w.x ≤ 1048575 → -1048576 ≤ w.y → w.y ≤ 1048575 →
      -1048576 ≤ w.z → w.z ≤ 1048575 → m (ChunkCoord.from_world w) = none →
      (match ChunkLocalCoord.from_world w with
        | none => none
        | some local_coord =>
          some (match m (ChunkCoord.from_world w) with
                | none => none
                | some chunk => chunk.get_voxel local_coord)) = some (none : Option Voxel) := by
    intro m w hx1 hx2 hy1 hy2 hz1 hz2 h
    rw [local_from_world_eq w hx1 hx2 hy1 hy2 hz1 hz2, h]
  refine ⟨?_, ?_, ?_, ?_, ?_⟩
  · intro ch l h
    unfold Chunk.get_voxel
    rw [if_pos h]
  · intro s w hx1 hx2 hy1 hy2 hz1 hz2 h
    exact hget s.chunks w hx1 hx2 hy1 hy2 hz1 hz2 h
  · intro chunks w hx1 hx2 hy1 hy2 hz1 hz2 h
    exact hget chunks w hx1 hx2 hy1 hy2 hz1 hz2 h
  · intro s acc texture_id off o w hx1 hx2 hy1 hy2 hz1 hz2 h
    unfold sample_face
    rw [show s.get_voxel w = some none from hget s.chunks w hx1 hx2 hy1 hy2 hz1 hz2 h]
  · intro s c rest hq h
    unfold WorldState.meshing_worker_lookup
    rw [hq]
    dsimp only
    rw [h]

/-- Witness for C4 at concrete inputs: a missing chunk reads as absent
through the world and the accessor, an out-of-range index reads as none,
a missing neighbor makes the extractor emit the face, and a worker pop of a
missing coordinate panics. -/
theorem C4_absence_not_error_witness :
    (Chunk.new ⟨0, 0, 0⟩).get_voxel ⟨32, 0, 0⟩ = none ∧
    WorldState.new.get_voxel ⟨5, 0, 0⟩ = some none ∧
    WorldAccessor.get_voxel ChunkMap.empty ⟨5, 0, 0⟩ = some none ∧
    sample_face WorldState.new ⟨[], []⟩ 1 (0, 0, 0) FaceOrientation.Left ⟨-1, 0, 0⟩ =
      some (emit_face ⟨[], []⟩ 1 (0, 0, 0) FaceOrientation.Left) ∧
    ({ WorldState.new with meshgen_queue := [⟨3, 0, 0⟩] } : WorldState).meshing_worker_lookup
      = none :=
  ⟨C4_absence_not_error.1 (Chunk.new ⟨0, 0, 0⟩) ⟨32, 0, 0⟩ (by decide),
   C4_absence_not_error.2.1 WorldState.new ⟨5, 0, 0⟩ (by decide) (by decide) (by decide)
     (by decide) (by decide) (by decide) rfl,
   C4_absence_not_error.2.2.1 ChunkMap.empty ⟨5, 0, 0⟩ (by decide) (by decide) (by decide)
     (by decide) (by decide) (by decide) rfl,
   C4_absence_not_error.2.2.2.1 WorldState.new ⟨[], []⟩ 1 (0, 0, 0) FaceOrientation.Left
     ⟨-1, 0, 0⟩ (by decide) (by decide) (by decide) (by decide) (by decide) (by decide) rfl,
   C4_absence_not_error.2.2.2.2 { WorldState.new with meshgen_queue := [⟨3, 0, 0⟩] }
     ⟨3, 0, 0⟩ [] rfl rfl⟩


/-- Counterexample for C4 as stated: in a state reached by public
operations plus one legitimate worker pop, the next meshing-worker chunk
lookup pops a coordinate whose chunk is absent and panics (none) instead of
yielding an empty result. -/
theorem C4_absence_not_error_cex :
    ReachableW c4_state2 ∧
    c4_state2.chunks ⟨-1, 0, 0⟩ = none ∧
    c4_state2.meshing_worker_lookup = none :=
  ⟨ReachableW.worker_pop
      (ReachableW.lift (Reachable.set_voxel ⟨0, 16, 16⟩ ⟨1⟩
        (Reachable.receive_chunk [Chunk.new ⟨0, 0, 0⟩] Reachable.init) rfl))
      (show c4_state1.meshgen_queue = ⟨0, 0, 0⟩ :: [⟨-1, 0, 0⟩] from rfl) rfl,
   rfl, rfl⟩

/-- Witness for C3: in the reachable state that received the origin chunk
and its six neighbors, the origin sits in the meshing queue and all its
neighbors are loaded. -/
theorem C3_meshing_invariant_witness :
    WorldState.neighbors_loaded c2_state.chunks ⟨0, 0, 0⟩ = true :=
  C3_meshing_invariant c2_state
    (ReachableNoEdit.receive_chunk _ ReachableNoEdit.init) ⟨0, 0, 0⟩ (by decide)

theorem foldlM_range_id {α : Type} (f : α → Nat → Option α) (n : Nat) (a : α)
    (h : ∀ x, x < n → f a x = some a) : (List.range n).foldlM f a = some a := by
  induction n with
  | zero => rfl
  | succ m ih =>
    rw [List.range_succ, List.foldlM_append, ih (fun x hx => h x (by omega))]
    show ([m].foldlM f a) = some a
    simp [List.foldlM, h m (by omega)]

theorem foldlM_range_through {α : Type} (f : α → Nat → Option α) (n x0 : Nat) (a b : α)
    (hx : x0 < n)
    (h1 : ∀ x, x < x0 → f a x = some a)
    (hs : f a x0 = some b)
    (h2 : ∀ x, x0 < x → x < n → f b x = some b) :
    (List.range n).foldlM f a = some b := by
  induction n with
  | zero => omega
  | succ m ih =>
    rw [List.range_succ, List.foldlM_append]
    by_cases hm : x0 = m
    · subst hm
      rw [foldlM_range_id f x0 a h1]
      show ([x0].foldlM f a) = some b
      simp [List.foldlM, hs]
    · rw [ih (by omega) (fun x h3 h4 => h2 x h3 (by omega))]
      show ([m].foldlM f b) = some b
      simp [List.foldlM, h2 m (by omega) (by omega)]

theorem foldlM_preserve {α : Type} (P : α → Prop) (f : α → Nat → Option α) (l : List Nat)
    (hf : ∀ a x b, f a x = some b → P a → P b) :
    ∀ (a b : α), l.foldlM f a = some b → P a → P b := by
  induction l with
  | nil =>
    intro a b h ha
    simp [List.foldlM] at h
    exact h ▸ ha
  | cons x t ih =>
    intro a b h ha
    simp only [List.foldlM_cons] at h
    cases hfa : f a x with
    | none => rw [hfa] at h; exact Option.noConfusion h
    | some a2 =>
      rw [hfa] at h
      exact ih a2 b h (hf a x a2 hfa ha)

theorem fcl_zero (x y z : Nat) (hx : x < 32) (hy : y < 32) (hz : z < 32) :
    WorldCoord.from_chunk_and_local ⟨0, 0, 0⟩ ⟨(x : Int), (y : Int), (z : Int)⟩ =
      ⟨(x : Int), (y : Int), (z : Int)⟩ := by
  unfold WorldCoord.from_chunk_and_local ChunkCoord.to_world WorldCoord.add wrap32
  simp only [WorldCoord.mk.injEq]
  refine ⟨?_, ?_, ?_⟩ <;> omega

theorem oneVoxel_get (x y z : Nat) (hx : x < 32) (hy : y < 32) (hz : z < 32) :
    oneVoxelWorld.get_voxel ⟨(x : Int), (y : Int), (z : Int)⟩ =
      some (some (if x = 1 ∧ y = 1 ∧ z = 1 then ⟨1⟩ else ⟨0⟩)) := by
  unfold WorldState.get_voxel
  rw [local_from_world_eq ⟨x, y, z⟩ ((by omega : (-1048576 : Int) ≤ (x : Int)))
    ((by omega : (x : Int) ≤ 1048575)) ((by omega : (-1048576 : Int) ≤ (y : Int)))
    ((by omega : (y : Int) ≤ 1048575)) ((by omega : (-1048576 : Int) ≤ (z : Int)))
    ((by omega : (z : Int) ≤ 1048575))]
  dsimp only
  rw [from_world_eq_ediv ⟨x, y, z⟩ ((by omega : (-1048576 : Int) ≤ (x : Int)))
    ((by omega : (x : Int) ≤ 1048575)) ((by omega : (-1048576 : Int) ≤ (y : Int)))
    ((by omega : (y : Int) ≤ 1048575)) ((by omega : (-1048576 : Int) ≤ (z : Int)))
    ((by omega : (z : Int) ≤ 1048575))]
  have hcx : (x : Int) / 32 = 0 := by omega
  have hcy : (y : Int) / 32 = 0 := by omega
  have hcz : (z : Int) / 32 = 0 := by omega
  have hlx : ((x : Int) % 32).toNat = x := by omega
  have hly : ((y : Int) % 32).toNat = y := by omega
  have hlz : ((z : Int) % 32).toNat = z := by omega
  rw [hcx, hcy, hcz, hlx, hly, hlz]
  rw [show oneVoxelWorld.chunks ⟨0, 0, 0⟩ = some oneVoxelChunk from rfl]
  dsimp only
  have hchunk : oneVoxelChunk.get_voxel ⟨x, y, z⟩ =
      some (if x = 1 ∧ y = 1 ∧ z = 1 then ⟨1⟩ else ⟨0⟩) := by
    show ((Chunk.new ⟨0, 0, 0⟩).set_voxel ⟨1, 1, 1⟩ Blocks.STONE.default_state).get_voxel
      ⟨x, y, z⟩ = _
    unfold Chunk.set_voxel
    rw [if_neg (by decide)]
    unfold Chunk.get_voxel
    rw [if_neg ((by simp only [CHUNK_SIZE]; omega :
        ¬(CHUNK_SIZE ≤ (⟨x, y, z⟩ : ChunkLocalCoord).x ∨
          CHUNK_SIZE ≤ (⟨x, y, z⟩ : ChunkLocalCoord).y ∨
          CHUNK_SIZE ≤ (⟨x, y, z⟩ : ChunkLocalCoord).z))),
      if_pos ((by simp only [Chunk.translate_index, CHUNK_SIZE_ITEMS, CHUNK_SIZE]; omega :
        Chunk.translate_index ⟨x, y, z⟩ < CHUNK_SIZE_ITEMS))]
    dsimp only [Chunk.new, Blocks.STONE, Blocks.AIR]
    congr 1
    by_cases h : x = 1 ∧ y = 1 ∧ z = 1
    · obtain ⟨rfl, rfl, rfl⟩ := h
      rw [if_pos rfl, if_pos ⟨rfl, rfl, rfl⟩]
    · have hidx : Chunk.translate_index ⟨x, y, z⟩ ≠ Chunk.translate_index ⟨1, 1, 1⟩ := by
        simp only [Chunk.translate_index, CHUNK_SIZE]
        intro hc
        exact h (by omega)
      rw [if_neg hidx, if_neg h]
  rw [hchunk]

theorem oneVoxel_step_air (x y z : Nat) (hx : x < 32) (hy : y < 32) (hz : z < 32)
    (hne : ¬(x = 1 ∧ y = 1 ∧ z = 1)) (acc : MeshAcc) :
    voxel_step oneVoxelWorld ⟨0, 0, 0⟩ x y z acc = some acc := by
  unfold voxel_step
  rw [fcl_zero x y z hx hy hz]
  dsimp only
  rw [oneVoxel_get x y z hx hy hz, if_neg hne]
  rfl


theorem oneVoxel_step111 :
    voxel_step oneVoxelWorld ⟨0, 0, 0⟩ 1 1 1 ⟨[], []⟩ = some oneVoxelMesh := by
  rfl

theorem oneVoxelMesh_lengths :
    oneVoxelMesh.vertices.length = 24 ∧ oneVoxelMesh.indices.length = 36 := by
  decide

theorem oneVoxel_yz_id (x : Nat) (hx : x < 32) (hxne : x ≠ 1) (a : MeshAcc) :
    (List.range 32).foldlM (fun ay y => (List.range 32).foldlM
      (fun az z => voxel_step oneVoxelWorld ⟨0, 0, 0⟩ x y z az) ay) a = some a :=
  foldlM_range_id _ 32 a (fun y hy =>
    foldlM_range_id _ 32 a (fun z hz =>
      oneVoxel_step_air x y z hx hy hz (fun h => hxne h.1) a))

theorem oneVoxel_fold :
    (List.range 32).foldlM (fun ax x => (List.range 32).foldlM (fun ay y =>
      (List.range 32).foldlM (fun az z =>
        voxel_step oneVoxelWorld ⟨0, 0, 0⟩ x y z az) ay) ax) (⟨[], []⟩ : MeshAcc)
      = some oneVoxelMesh := by
  refine foldlM_range_through _ 32 1 _ _ (by omega)
    (fun x hx => oneVoxel_yz_id x (by omega) (by omega) ⟨[], []⟩)
    ?_
    (fun x h1 h2 => oneVoxel_yz_id x (by omega) (by omega) oneVoxelMesh)
  refine foldlM_range_through _ 32 1 _ _ (by omega)
    (fun y hy => foldlM_range_id _ 32 _ (fun z hz =>
      oneVoxel_step_air 1 y z (by omega) (by omega) hz (by omega) _))
    ?_
    (fun y h1 h2 => foldlM_range_id _ 32 _ (fun z hz =>
      oneVoxel_step_air 1 y z (by omega) (by omega) hz (by omega) _))
  exact foldlM_range_through _ 32 1 _ _ (by omega)
    (fun z hz => oneVoxel_step_air 1 1 z (by omega) (by omega) (by omega) (by omega) _)
    oneVoxel_step111
    (fun z h1 h2 => oneVoxel_step_air 1 1 z (by omega) (by omega) (by omega) (by omega) _)

theorem gen_oneVoxel :
    generate_model oneVoxelWorld oneVoxelChunk = some (some oneVoxelMesh) := by
  unfold generate_model
  rw [show oneVoxelChunk.coord = ⟨0, 0, 0⟩ from rfl]
  simp only [CHUNK_SIZE]
  rw [oneVoxel_fold]
  rfl

theorem solidChunk_get (c : ChunkCoord) (l : ChunkLocalCoord)
    (hx : l.x < 32) (hy : l.y < 32) (hz : l.z < 32) :
    (solidChunk c).get_voxel l = some ⟨1⟩ := by
  unfold solidChunk Chunk.get_voxel
  rw [if_neg (by simp only [CHUNK_SIZE]; omega),
    if_pos (by simp only [Chunk.translate_index, CHUNK_SIZE_ITEMS, CHUNK_SIZE]; omega)]
  rfl

theorem encl_chunks_eq (c : ChunkCoord)
    (h : c = ⟨0, 0, 0⟩ ∨ c = ⟨-1, 0, 0⟩ ∨ c = ⟨1, 0, 0⟩ ∨ c = ⟨0, -1, 0⟩ ∨
      c = ⟨0, 1, 0⟩ ∨ c = ⟨0, 0, -1⟩ ∨ c = ⟨0, 0, 1⟩) :
    enclosedWorld.chunks c = some (solidChunk c) := by
  dsimp only [enclosedWorld]
  rw [if_pos h]

theorem encl_get_master (wx wy wz cx cy cz : Int)
    (hx1 : -1048576 ≤ wx) (hx2 : wx ≤ 1048575)
    (hy1 : -1048576 ≤ wy) (hy2 : wy ≤ 1048575)
    (hz1 : -1048576 ≤ wz) (hz2 : wz ≤ 1048575)
    (hcx : wx / 32 = cx) (hcy : wy / 32 = cy) (hcz : wz / 32 = cz)
    (hc : enclosedWorld.chunks ⟨cx, cy, cz⟩ = some (solidChunk ⟨cx, cy, cz⟩)) :
    enclosedWorld.get_voxel ⟨wx, wy, wz⟩ = some (some ⟨1⟩) := by
  unfold WorldState.get_voxel
  rw [local_from_world_eq ⟨wx, wy, wz⟩ hx1 hx2 hy1 hy2 hz1 hz2]
  dsimp only
  rw [from_world_eq_ediv ⟨wx, wy, wz⟩ hx1 hx2 hy1 hy2 hz1 hz2]
  dsimp only
  rw [hcx, hcy, hcz, hc]
  dsimp only
  rw [solidChunk_get ⟨cx, cy, cz⟩ _ ((by omega : (wx % 32).toNat < 32))
    ((by omega : (wy % 32).toNat < 32)) ((by omega : (wz % 32).toNat < 32))]

theorem encl_step (x y z : Nat) (hx : x < 32) (hy : y < 32) (hz : z < 32) (acc : MeshAcc) :
    voxel_step enclosedWorld ⟨0, 0, 0⟩ x y z acc = some acc := by
  have hcen : enclosedWorld.get_voxel ⟨(x : Int), (y : Int), (z : Int)⟩ =
      some (some ⟨1⟩) :=
    encl_get_master x y z 0 0 0 (by omega) (by omega) (by omega) (by omega) (by omega)
      (by omega) (by omega) (by omega) (by omega) (encl_chunks_eq _ (by decide))
  have hgl : enclosedWorld.get_voxel ⟨(x : Int) - 1, (y : Int), (z : Int)⟩ =
      some (some ⟨1⟩) := by
    by_cases h0 : x = 0
    · subst h0
      exact encl_get_master _ _ _ (-1) 0 0 (by omega) (by omega) (by omega) (by omega)
        (by omega) (by omega) (by omega) (by omega) (by omega)
        (encl_chunks_eq _ (by decide))
    · exact encl_get_master _ _ _ 0 0 0 (by omega) (by omega) (by omega) (by omega)
        (by omega) (by omega) (by omega) (by omega) (by omega)
        (encl_chunks_eq _ (by decide))
  have hgr : enclosedWorld.get_voxel ⟨(x : Int) + 1, (y : Int), (z : Int)⟩ =
      some (some ⟨1⟩) := by
    by_cases h0 : x = 31
    · subst h0
      exact encl_get_master _ _ _ 1 0 0 (by omega) (by omega) (by omega) (by omega)
        (by omega) (by omega) (by omega) (by omega) (by omega)
        (encl_chunks_eq _ (by decide))
    · exact encl_get_master _ _ _ 0 0 0 (by omega) (by omega) (by omega) (by omega)
        (by omega) (by omega) (by omega) (by omega) (by omega)
        (encl_chunks_eq _ (by decide))
  have hgu : enclosedWorld.get_voxel ⟨(x : Int), (y : Int) + 1, (z : Int)⟩ =
      some (some ⟨1⟩) := by
    by_cases h0 : y = 31
    · subst h0
      exact encl_get_master _ _ _ 0 1 0 (by omega) (by omega) (by omega) (by omega)
        (by omega) (by omega) (by omega) (by omega) (by omega)
        (encl_chunks_eq _ (by decide))
    · exact encl_get_master _ _ _ 0 0 0 (by omega) (by omega) (by omega) (by omega)
        (by omega) (by omega) (by omega) (by omega) (by omega)
        (encl_chunks_eq _ (by decide))
  have hgd : enclosedWorld.get_voxel ⟨(x : Int), (y : Int) - 1, (z : Int)⟩ =
      some (some ⟨1⟩) := by
    by_cases h0 : y = 0
    · subst h0
      exact encl_get_master _ _ _ 0 (-1) 0 (by omega) (by omega) (by omega) (by omega)
        (by omega) (by omega) (by omega) (by omega) (by omega)
        (encl_chunks_eq _ (by decide))
    · exact encl_get_master _ _ _ 0 0 0 (by omega) (by omega) (by omega) (by omega)
        (by omega) (by omega) (by omega) (by omega) (by omega)
        (encl_chunks_eq _ (by decide))
  have hgf : enclosedWorld.get_voxel ⟨(x : Int), (y : Int), (z : Int) - 1⟩ =
      some (some ⟨1⟩) := by
    by_cases h0 : z = 0
    · subst h0
      exact encl_get_master _ _ _ 0 0 (-1) (by omega) (by omega) (by omega) (by omega)
        (by omega) (by omega) (by omega) (by omega) (by omega)
        (encl_chunks_eq _ (by decide))
    · exact encl_get_master _ _ _ 0 0 0 (by omega) (by omega) (by omega) (by omega)
        (by omega) (by omega) (by omega) (by omega) (by omega)
        (encl_chunks_eq _ (by decide))
  have hgb : enclosedWorld.get_voxel ⟨(x : Int), (y : Int), (z : Int) + 1⟩ =
      some (some ⟨1⟩) := by
    by_cases h0 : z = 31
    · subst h0
      exact encl_get_master _ _ _ 0 0 1 (by omega) (by omega) (by omega) (by omega)
        (by omega) (by omega) (by omega) (by omega) (by omega)
        (encl_chunks_eq _ (by decide))
    · exact encl_get_master _ _ _ 0 0 0 (by omega) (by omega) (by omega) (by omega)
        (by omega) (by omega) (by omega) (by omega) (by omega)
        (encl_chunks_eq _ (by decide))
  have wl : wrap32 ((x : Int) - 1) = (x : Int) - 1 := by unfold wrap32; omega
  have wr : wrap32 ((x : Int) + 1) = (x : Int) + 1 := by unfold wrap32; omega
  have wu : wrap32 ((y : Int) + 1) = (y : Int) + 1 := by unfold wrap32; omega
  have wd : wrap32 ((y : Int) - 1) = (y : Int) - 1 := by unfold wrap32; omega
  have wf : wrap32 ((z : Int) - 1) = (z : Int) - 1 := by unfold wrap32; omega
  have wb : wrap32 ((z : Int) + 1) = (z : Int) + 1 := by unfold wrap32; omega
  unfold voxel_step
  rw [fcl_zero x y z hx hy hz]
  dsimp only
  rw [hcen]
  dsimp only [WorldCoord.left, WorldCoord.right, WorldCoord.up, WorldCoord.down,
    WorldCoord.front, WorldCoord.back]
  rw [wl, wr, wu, wd, wf, wb]
  unfold sample_face
  rw [hgl, hgr, hgu, hgd, hgf, hgb]
  rfl

theorem encl_fold :
    (List.range 32).foldlM (fun ax x => (List.range 32).foldlM (fun ay y =>
      (List.range 32).foldlM (fun az z =>
        voxel_step enclosedWorld ⟨0, 0, 0⟩ x y z az) ay) ax) (⟨[], []⟩ : MeshAcc)
      = some ⟨[], []⟩ :=
  foldlM_range_id _ 32 _ (fun x hx => foldlM_range_id _ 32 _ (fun y hy =>
    foldlM_range_id _ 32 _ (fun z hz => encl_step x y z hx hy hz _)))

theorem gen_enclosed :
    generate_model enclosedWorld (solidChunk ⟨0, 0, 0⟩) = some none := by
  unfold generate_model
  rw [show (solidChunk ⟨0, 0, 0⟩).coord = ⟨0, 0, 0⟩ from rfl]
  simp only [CHUNK_SIZE]
  rw [encl_fold]
  rfl

theorem empty_get (x y z : Nat) (hx : x < 32) (hy : y < 32) (hz : z < 32) :
    emptyChunkWorld.get_voxel ⟨(x : Int), (y : Int), (z : Int)⟩ = some (some ⟨0⟩) := by
  unfold WorldState.get_voxel
  rw [local_from_world_eq ⟨x, y, z⟩ ((by omega : (-1048576 : Int) ≤ (x : Int)))
    ((by omega : (x : Int) ≤ 1048575)) ((by omega : (-1048576 : Int) ≤ (y : Int)))
    ((by omega : (y : Int) ≤ 1048575)) ((by omega : (-1048576 : Int) ≤ (z : Int)))
    ((by omega : (z : Int) ≤ 1048575))]
  dsimp only
  rw [from_world_eq_ediv ⟨x, y, z⟩ ((by omega : (-1048576 : Int) ≤ (x : Int)))
    ((by omega : (x : Int) ≤ 1048575)) ((by omega : (-1048576 : Int) ≤ (y : Int)))
    ((by omega : (y : Int) ≤ 1048575)) ((by omega : (-1048576 : Int) ≤ (z : Int)))
    ((by omega : (z : Int) ≤ 1048575))]
  dsimp only
  rw [((by omega : (x : Int) / 32 = 0)), ((by omega : (y : Int) / 32 = 0)),
    ((by omega : (z : Int) / 32 = 0))]
  rw [show emptyChunkWorld.chunks ⟨0, 0, 0⟩ = some (Chunk.new ⟨0, 0, 0⟩) from rfl]
  dsimp only
  unfold Chunk.new Chunk.get_voxel
  rw [if_neg (by simp only [CHUNK_SIZE]; omega),
    if_pos (by simp only [Chunk.translate_index, CHUNK_SIZE_ITEMS, CHUNK_SIZE]; omega)]
  rfl

theorem empty_step (x y z : Nat) (hx : x < 32) (hy : y < 32) (hz : z < 32) (acc : MeshAcc) :
    voxel_step emptyChunkWorld ⟨0, 0, 0⟩ x y z acc = some acc := by
  unfold voxel_step
  rw [fcl_zero x y z hx hy hz]
  dsimp only
  rw [empty_get x y z hx hy hz]
  rfl

theorem empty_fold :
    (List.range 32).foldlM (fun ax x => (List.range 32).foldlM (fun ay y =>
      (List.range 32).foldlM (fun az z =>
        voxel_step emptyChunkWorld ⟨0, 0, 0⟩ x y z az) ay) ax) (⟨[], []⟩ : MeshAcc)
      = some ⟨[], []⟩ :=
  foldlM_range_id _ 32 _ (fun x hx => foldlM_range_id _ 32 _ (fun y hy =>
    foldlM_range_id _ 32 _ (fun z hz => empty_step x y z hx hy hz _)))

theorem gen_empty :
    generate_model emptyChunkWorld (Chunk.new ⟨0, 0, 0⟩) = some none := by
  unfold generate_model
  rw [show (Chunk.new ⟨0, 0, 0⟩).coord = ⟨0, 0, 0⟩ from rfl]
  simp only [CHUNK_SIZE]
  rw [empty_fold]
  rfl

theorem face_lengths (t : Nat) (off : Nat × Nat × Nat) (o : FaceOrientation) :
    (face t off o).1.length = 4 ∧ (face t off o).2.length = 6 := by
  cases o <;> exact ⟨rfl, rfl⟩

theorem emit_face_lengths (acc : MeshAcc) (t : Nat) (off : Nat × Nat × Nat)
    (o : FaceOrientation) :
    (emit_face acc t off o).vertices.length = acc.vertices.length + 4 ∧
    (emit_face acc t off o).indices.length = acc.indices.length + 6 := by
  unfold emit_face
  refine ⟨?_, ?_⟩
  · rw [List.length_append, (face_lengths t off o).1]
  · rw [List.length_append, List.length_map, (face_lengths t off o).2]

theorem sample_face_cases (s : WorldState) (acc : MeshAcc) (t : Nat)
    (off : Nat × Nat × Nat) (o : FaceOrientation) (w : WorldCoord) :
    sample_face s acc t off o w = none ∨
    sample_face s acc t off o w = some (emit_face acc t off o) ∨
    sample_face s acc t off o w = some acc := by
  unfold sample_face
  cases s.get_voxel w with
  | none => exact Or.inl rfl
  | some o1 =>
    cases o1 with
    | none => exact Or.inr (Or.inl rfl)
    | some v =>
      dsimp only
      cases blockInfo v.id with
      | none => exact Or.inl rfl
      | some bi =>
        dsimp only
        by_cases ht : bi.transparent = true
        · rw [if_pos ht]
          exact Or.inr (Or.inl rfl)
        · rw [if_neg ht]
          exact Or.inr (Or.inr rfl)

theorem sample_face_quad {s : WorldState} {acc a2 : MeshAcc} {t : Nat}
    {off : Nat × Nat × Nat} {o : FaceOrientation} {w : WorldCoord}
    (h : sample_face s acc t off o w = some a2)
    (hq : ∃ k, acc.vertices.length = 4 * k ∧ acc.indices.length = 6 * k) :
    ∃ k, a2.vertices.length = 4 * k ∧ a2.indices.length = 6 * k := by
  obtain ⟨k, hv, hi⟩ := hq
  rcases sample_face_cases s acc t off o w with hc | hc | hc
  · rw [hc] at h
    exact Option.noConfusion h
  · rw [hc] at h
    injection h with h
    subst h
    exact ⟨k + 1, by rw [(emit_face_lengths acc t off o).1, hv]; ring,
      by rw [(emit_face_lengths acc t off o).2, hi]; ring⟩
  · rw [hc] at h
    injection h with h
    subst h
    exact ⟨k, hv, hi⟩

theorem voxel_step_quad {s : WorldState} {c : ChunkCoord} {x y z : Nat} {acc a2 : MeshAcc}
    (h : voxel_step s c x y z acc = some a2)
    (hq : ∃ k, acc.vertices.length = 4 * k ∧ acc.indices.length = 6 * k) :
    ∃ k, a2.vertices.length = 4 * k ∧ a2.indices.length = 6 * k := by
  unfold voxel_step at h
  dsimp only at h
  rw [Option.bind_eq_bind', Option.bind_eq_some'] at h
  obtain ⟨cur, hcur, h⟩ := h
  rw [Option.bind_eq_bind', Option.bind_eq_some'] at h
  obtain ⟨v, hv, h⟩ := h
  rw [Option.bind_eq_bind', Option.bind_eq_some'] at h
  obtain ⟨bi, hbi, h⟩ := h
  by_cases ht : bi.transparent = true
  · rw [if_pos ht] at h
    rw [show (pure acc : Option MeshAcc) = some acc from rfl] at h
    injection h with h
    subst h
    exact hq
  · rw [if_neg ht] at h
    rw [Option.bind_eq_bind', Option.bind_eq_some'] at h
    obtain ⟨a1, h1, h⟩ := h
    rw [Option.bind_eq_bind', Option.bind_eq_some'] at h
    obtain ⟨b1, h2, h⟩ := h
    rw [Option.bind_eq_bind', Option.bind_eq_some'] at h
    obtain ⟨b2, h3, h⟩ := h
    rw [Option.bind_eq_bind', Option.bind_eq_some'] at h
    obtain ⟨b3, h4, h⟩ := h
    rw [Option.bind_eq_bind', Option.bind_eq_some'] at h
    obtain ⟨b4, h5, h⟩ := h
    rw [Option.bind_eq_bind', Option.bind_eq_some'] at h
    obtain ⟨b5, h6, h⟩ := h
    rw [show (pure b5 : Option MeshAcc) = some b5 from rfl] at h
    injection h with h
    subst h
    exact sample_face_quad h6 (sample_face_quad h5 (sample_face_quad h4
      (sample_face_quad h3 (sample_face_quad h2 (sample_face_quad h1 hq)))))

theorem gen_quad (s : WorldState) (ch : Chunk) (r : MeshAcc)
    (h : generate_model s ch = some (some r)) :
    ∃ k, r.vertices.length = 4 * k ∧ r.indices.length = 6 * k := by
  unfold generate_model at h
  rw [Option.bind_eq_bind', Option.bind_eq_some'] at h
  obtain ⟨acc, hfold, hif⟩ := h
  by_cases h0 : acc.vertices.length = 0
  · rw [if_pos h0] at hif
    rw [show (pure (none : Option MeshAcc) : Option (Option MeshAcc)) = some none from
      rfl] at hif
    injection hif with hif
    exact Option.noConfusion hif
  · rw [if_neg h0] at hif
    rw [show (pure (some acc) : Option (Option MeshAcc)) = some (some acc) from rfl] at hif
    injection hif with hif
    injection hif with hif
    subst hif
    refine foldlM_preserve
      (fun a => ∃ k, a.vertices.length = 4 * k ∧ a.indices.length = 6 * k)
      _ (List.range CHUNK_SIZE) ?_ _ _ hfold ⟨0, rfl, rfl⟩
    intro a x b hab ha
    refine foldlM_preserve
      (fun a => ∃ k, a.vertices.length = 4 * k ∧ a.indices.length = 6 * k)
      _ (List.range CHUNK_SIZE) ?_ _ _ hab ha
    intro a1 y b1 hab1 ha1
    refine foldlM_preserve
      (fun a => ∃ k, a.vertices.length = 4 * k ∧ a.indices.length = 6 * k)
      _ (List.range CHUNK_SIZE) ?_ _ _ hab1 ha1
    intro a2 z b2 hab2 ha2
    exact voxel_step_quad hab2 ha2

/-- C8 (confirmed): every mesh generate_model produces consists of whole
quads (4 vertices and 6 indices per emitted face, so lengths 4k and 6k);
meshing the chunk whose only non-air voxel is one solid interior voxel in
an otherwise empty world yields exactly 6 faces, 24 vertices and 36
indices; a fully enclosed all-solid chunk with solid neighbor chunks and a
fully empty chunk both yield no model (the inner none). -/
theorem C8_surface_extraction :
    (∀ (s : WorldState) (ch : Chunk) (r : MeshAcc),
      generate_model s ch = some (some r) →
      ∃ k, r.vertices.length = 4 * k ∧ r.indices.length = 6 * k) ∧
    (∀ (acc : MeshAcc) (t : Nat) (off : Nat × Nat × Nat) (o : FaceOrientation),
      (emit_face acc t off o).vertices.length = acc.vertices.length + 4 ∧
      (emit_face acc t off o).indices.length = acc.indices.length + 6) ∧
    (∃ r, generate_model oneVoxelWorld oneVoxelChunk = some (some r) ∧
      r.vertices.length = 24 ∧ r.indices.length = 36) ∧
    generate_model enclosedWorld (solidChunk ⟨0, 0, 0⟩) = some none ∧
    generate_model emptyChunkWorld (Chunk.new ⟨0, 0, 0⟩) = some none :=
  ⟨gen_quad, emit_face_lengths,
   ⟨oneVoxelMesh, gen_oneVoxel, oneVoxelMesh_lengths.1, oneVoxelMesh_lengths.2⟩,
   gen_enclosed, gen_empty⟩

/-- Witness for C8: the quad accounting applied to the concrete one-voxel
mesh. -/
theorem C8_surface_extraction_witness :
    ∃ k, oneVoxelMesh.vertices.length = 4 * k ∧ oneVoxelMesh.indices.length = 6 * k :=
  C8_surface_extraction.1 oneVoxelWorld oneVoxelChunk oneVoxelMesh gen_oneVoxel
